import Mathlib

/-!
Verification of the typingmind-webscraper crawl pipeline.

The pure decision logic of the pipeline (URL validation and cleaning,
include and exclude classification, priority scoring and ranking, the
per-page result records, the batch loop and its rate-limit schedule, and
the seed-URL fallbacks of the crawl driver) is embedded shallowly below.
Network fetches and DOM extraction are effectful collaborators; they enter
the model as explicit parameters (an Except-valued fetch outcome, an
oracle from URLs to fetch outcomes, a list of discovered URLs).

The WHATWG URL parser invoked by the code (the URL constructor of Node)
is modelled by parseUrl below, restricted to the authority form
scheme://host/path?query#fragment that every URL handled by the claims
takes: a string parses when it has a well-formed scheme, a double slash
and a nonempty host; the pathname defaults to the single slash when the
path is empty, as in WHATWG. Strings without an authority part, which
Node would accept for non-special schemes, are rejected by the model;
no claim or concrete input below depends on such strings.
-/

set_option maxRecDepth 8192

namespace Scraper

/-- Components of a parsed URL, as exposed by the URL object of Node:
scheme and host are lowercased by the parser, the path keeps its case. -/
structure UrlParts where
  scheme : String
  host : String
  pathname : String
  search : String
deriving Repr, DecidableEq

/-- Scheme characters allowed after the first letter (RFC 3986 / WHATWG). -/
def isSchemeChar (c : Char) : Bool :=
  c.isAlpha || c.isDigit || c == '+' || c == '-' || c == '.'

/-- Split a character list at the first colon, returning the part before
and the part after; none when no colon occurs. -/
def splitScheme : List Char → Option (List Char × List Char)
  | [] => none
  | c :: rest =>
    if c == ':' then some ([], rest)
    else
      match splitScheme rest with
      | some (s, r) => some (c :: s, r)
      | none => none

/-- Characters that terminate the host component. -/
def isHostEnd (c : Char) : Bool := c == '/' || c == '?' || c == '#'

/-- Characters that terminate the path component. -/
def isPathEnd (c : Char) : Bool := c == '?' || c == '#'

/-- Model of the WHATWG URL parser (the URL constructor of Node),
restricted to authority-form URLs; see the module comment. -/
def parseUrl (s : String) : Option UrlParts :=
  match splitScheme s.toList with
  | none => none
  | some (schemeCs, rest) =>
    if schemeCs.isEmpty then none
    else if !(schemeCs.headD 'a').isAlpha then none
    else if !schemeCs.all isSchemeChar then none
    else
      match rest with
      | '/' :: '/' :: rest2 =>
        let host := rest2.takeWhile (fun c => !isHostEnd c)
        let after := rest2.dropWhile (fun c => !isHostEnd c)
        if host.isEmpty then none
        else
          let path := after.takeWhile (fun c => !isPathEnd c)
          let qs := (after.dropWhile (fun c => !isPathEnd c)).takeWhile (fun c => !(c == '#'))
          some { scheme := String.mk (schemeCs.map Char.toLower),
                 host := String.mk (host.map Char.toLower),
                 pathname := if path.isEmpty then "/" else String.mk path,
                 search := String.mk qs }
      | _ => none

/-- ASCII lower-casing of a string, the fragment of toLowerCase of
JavaScript that the patterns and URLs of the claims exercise. -/
def lowerStr (s : String) : String := String.mk (s.toList.map Char.toLower)

/-- String.prototype.trim: drop whitespace from both ends. -/
def jsTrim (s : String) : String :=
  String.mk (((s.toList.dropWhile Char.isWhitespace).reverse.dropWhile
    Char.isWhitespace).reverse)

/-- String.prototype.startsWith. -/
def jsStartsWith (s pre : String) : Bool := pre.toList.isPrefixOf s.toList

/-- String.prototype.endsWith. -/
def jsEndsWith (s suf : String) : Bool := suf.toList.isSuffixOf s.toList

/-- Substring containment on character lists: does the needle occur
contiguously inside the haystack? Mirrors String.prototype.includes. -/
def containsSub : List Char → List Char → Bool
  | [], needle => needle.isEmpty
  | c :: t, needle => needle.isPrefixOf (c :: t) || containsSub t needle

/-- Case-insensitive substring test, as in
url.toLowerCase().includes(pattern.toLowerCase()). -/
def strIncludesCI (hay needle : String) : Bool :=
  containsSub (lowerStr hay).toList (lowerStr needle).toList

/-! ## url_filters: cleanUrls and filterUrlsByType -/

/-- validateUrl from url_filters: true exactly when the URL constructor
does not throw. -/
def validateUrl (u : String) : Bool := (parseUrl u).isSome

/-- cleanUrls from url_filters: keep truthy strings, trim each entry,
drop empties, drop entries the URL constructor rejects, keep entries
starting with the prefix http. The input list models a list of strings
(the non-string and null entries the first filter discards in JavaScript
are outside the List String model). -/
def cleanUrls (urls : List String) : List String :=
  ((((urls.filter (fun u => u != "")).map jsTrim).filter
      (fun u => decide (0 < u.length))).filter validateUrl).filter
    (fun u => jsStartsWith u "http")

/-- An include-pattern and exclude-pattern set of CONTENT_PATTERNS. -/
structure ContentPatterns where
  includePatterns : List String
  excludePatterns : List String
deriving Repr, DecidableEq

/-- The documentation profile of CONTENT_PATTERNS. -/
def documentationPatterns : ContentPatterns :=
  { includePatterns :=
      ["/docs/", "/doc/", "/guide/", "/guides/", "/tutorial/", "/tutorials/",
       "/getting-started/", "/quickstart/", "/setup/", "/installation/",
       "/manual/", "/handbook/", "/reference/", "/intro/", "/introduction/",
       "/overview/", "/help/", "/support/", "/learn/", "/examples/"],
    excludePatterns :=
      ["/blog/", "/blogs/", "/news/", "/press/", "/changelog/", "/releases/",
       "/download/", "/downloads/", "/pricing/", "/contact/", "/about/",
       "/legal/", "/privacy/", "/terms/", "/careers/", "/jobs/",
       "/api-reference/", "/api/", "/swagger/", "/openapi/"] }

/-- The general profile of CONTENT_PATTERNS: empty include set, so most
content passes. -/
def generalPatterns : ContentPatterns :=
  { includePatterns := [],
    excludePatterns :=
      ["/admin/", "/login/", "/register/", "/account/", "/dashboard/",
       "/search/", "/404/", "/error/", "/maintenance/"] }

/-- The lookup CONTENT_PATTERNS of the type key, falling back to the
general profile for unknown keys. -/
def contentPatterns (t : String) : ContentPatterns :=
  if t == "documentation" then documentationPatterns else generalPatterns

/-- Step 1 of filterUrlsByType: when the include set is nonempty, keep
URLs whose lowercased text contains some lowercased include pattern. -/
def applyIncludeFilter (pats : List String) (urls : List String) : List String :=
  if pats.isEmpty then urls
  else urls.filter (fun u => pats.any (fun p => strIncludesCI u p))

/-- Step 2 of filterUrlsByType: when the exclude set is nonempty, drop
URLs whose lowercased text contains some lowercased exclude pattern. -/
def applyExcludeFilter (pats : List String) (urls : List String) : List String :=
  if pats.isEmpty then urls
  else urls.filter (fun u => !(pats.any (fun p => strIncludesCI u p)))

/-- Step 3 of filterUrlsByType: a JavaScript Set keeps the first
occurrence of each entry, in insertion order. -/
def dedupFirstAux : List String → List String → List String
  | [], _ => []
  | a :: l, seen =>
    if seen.contains a then dedupFirstAux l seen
    else a :: dedupFirstAux l (a :: seen)

/-- First-seen deduplication, the spread of a Set built from the list. -/
def dedupFirst (l : List String) : List String := dedupFirstAux l []

/-- Step 4 of filterUrlsByType: truncate only when the list exceeds the
page cap. -/
def capList (cap : Nat) (l : List String) : List String :=
  if cap < l.length then l.take cap else l

/-- filterUrlsByType from url_filters: include filter, exclude filter,
first-seen deduplication, then the page cap. -/
def filterUrlsByType (urls : List String) (t : String) (maxPages : Nat) : List String :=
  capList maxPages
    (dedupFirst
      (applyExcludeFilter (contentPatterns t).excludePatterns
        (applyIncludeFilter (contentPatterns t).includePatterns urls)))

/-! ## priority_sorter: calculateUrlPriority and prioritizeUrls -/

/-- The high, medium and low keyword tiers of one entry of
PRIORITY_KEYWORDS. -/
structure KeywordTiers where
  high : List String
  medium : List String
  low : List String
deriving Repr, DecidableEq

/-- The documentation tiers of PRIORITY_KEYWORDS. -/
def documentationKeywords : KeywordTiers :=
  { high := ["intro", "introduction", "getting-started", "quickstart",
             "overview", "guide", "tutorial", "setup"],
    medium := ["example", "usage", "configuration", "installation",
               "concepts", "basics"],
    low := ["advanced", "troubleshooting", "faq", "migration", "changelog"] }

/-- The lookup PRIORITY_KEYWORDS of the type key: the table has the
single documentation key and falls back to it, so every key yields the
documentation tiers. -/
def priorityKeywords (t : String) : KeywordTiers :=
  if t == "documentation" then documentationKeywords else documentationKeywords

/-- String.prototype.split at the slash character: the pieces between
slashes, with the empty piece before a leading and after a trailing
slash, as in JavaScript. -/
def splitSlashAux : List Char → List Char → List String
  | [], acc => [String.mk acc.reverse]
  | c :: rest, acc =>
    if c == '/' then String.mk acc.reverse :: splitSlashAux rest []
    else splitSlashAux rest (c :: acc)

/-- The non-empty path segments, pathname.split of the slash with the
Boolean filter. -/
def pathSegments (pathname : String) : List String :=
  (splitSlashAux pathname.toList []).filter (fun s => s != "")

/-- calculateUrlPriority from priority_sorter: base 100, depth penalty,
keyword-tier bonuses, structural bonuses, extension penalty, index and
readme bonuses, positional bonus, clamped at 0; an unparseable URL is
caught and scored 0. -/
def calculateUrlPriority (url : String) (index : Nat) (t : String) : Int :=
  match parseUrl url with
  | none => 0
  | some u =>
    let pathname := lowerStr u.pathname
    let segments := pathSegments pathname
    let kws := priorityKeywords t
    let score : Int :=
      100 - 3 * (segments.length : Int)
      + (if kws.high.any (fun k => strIncludesCI pathname k) then 25 else 0)
      + (if kws.medium.any (fun k => strIncludesCI pathname k) then 15 else 0)
      + (if kws.low.any (fun k => strIncludesCI pathname k) then 5 else 0)
      + (if pathname == "/" || pathname == "/docs" || pathname == "/docs/" then 30 else 0)
      + (if segments.headD "" == "docs" && segments.length == 2 then 20 else 0)
      + (if jsEndsWith pathname ".xml" || jsEndsWith pathname ".json" || jsEndsWith pathname ".pdf" then -20 else 0)
      + (if strIncludesCI pathname "index" && !(strIncludesCI pathname "api") then 10 else 0)
      + (if strIncludesCI pathname "readme" then 15 else 0)
      + max 0 (50 - (index : Int))
    max 0 score

/-- One element of the array built by prioritizeUrls before sorting. -/
structure ScoredUrl where
  url : String
  priority : Int
  originalIndex : Nat
deriving Repr, DecidableEq

/-- The sort comparator of prioritizeUrls as a Boolean order: a before
b when a has strictly higher priority, or equal priority and a smaller
or equal original index. -/
def priorityLe (a b : ScoredUrl) : Bool :=
  decide (b.priority < a.priority)
  || (decide (a.priority = b.priority) && decide (a.originalIndex ≤ b.originalIndex))

/-- The scored array of prioritizeUrls: each URL with its priority and
its discovery index. -/
def scoredItems (urls : List String) (t : String) : List ScoredUrl :=
  urls.enum.map (fun p => { url := p.2, priority := calculateUrlPriority p.2 p.1 t, originalIndex := p.1 })

/-- The sorted array of prioritizeUrls. The comparator is a total order
on elements with distinct original indices, so any comparator-respecting
sort yields this list. -/
def prioritizedItems (urls : List String) (t : String) : List ScoredUrl :=
  (scoredItems urls t).mergeSort priorityLe

/-- prioritizeUrls from priority_sorter: score, sort descending with the
original-index tie-break, take the first maxPages, return the URLs. -/
def prioritizeUrls (urls : List String) (t : String) (maxPages : Nat) : List String :=
  ((prioritizedItems urls t).take maxPages).map (fun s => s.url)

/-! ## sitemap_crawler: per-page results, batch loop, crawl driver -/

/-- The per-page record returned by scrapeSinglePage. The content,
length, success and error fields decide the claims; the remaining
metadata fields of the record (author, keywords, publish date, language,
word count, reading time, content type, open graph, last modified,
canonical URL) are independent of them and are omitted. -/
structure ExtractionResult where
  url : String
  title : String
  description : String
  content : String
  length : Nat
  success : Bool
  error : Option String
deriving Repr, DecidableEq

/-- Drop whitespace runs to a single space: the replace of a whitespace
run by one space in cleanText. The Boolean argument records whether the
previous emitted character was a collapsed space. -/
def squeezeWhitespace : Bool → List Char → List Char
  | _, [] => []
  | prevWs, c :: rest =>
    if c.isWhitespace then
      if prevWs then squeezeWhitespace true rest
      else ' ' :: squeezeWhitespace true rest
    else c :: squeezeWhitespace false rest

/-- cleanText from sitemap_crawler: collapse whitespace runs to one
space, then trim. The second replace of newline runs is the identity
after the first pass, which leaves no newline. -/
def cleanText (s : String) : String :=
  jsTrim (String.mk (squeezeWhitespace false s.toList))

/-- What a successful fetch and DOM extraction of one page delivers to
scrapeSinglePage: the text chosen by extractSemanticContent plus the
title and description read from the document. -/
structure FetchedPage where
  rawContent : String
  title : String
  description : String
deriving Repr, DecidableEq

/-- scrapeSinglePage from sitemap_crawler. The fetch plus extraction is
the effectful part and enters as an Except value: an error message when
the request or extraction threw, the fetched page otherwise. The match
mirrors the try block building the success record and the catch block
building the failure record. -/
def scrapeSinglePage (url : String) (fetched : Except String FetchedPage) : ExtractionResult :=
  match fetched with
  | Except.ok page =>
    let cleanedContent := cleanText page.rawContent
    { url := url, title := page.title, description := page.description,
      content := cleanedContent, length := cleanedContent.length,
      success := true, error := none }
  | Except.error msg =>
    { url := url, title := "", description := "", content := "",
      length := 0, success := false, error := some msg }

/-- batchScrape from sitemap_crawler, result part: one scrapeSinglePage
record is pushed per URL, in input order; the fetch oracle gives each
URL its fetch outcome. scrapeSinglePage catches every per-page error,
so the loop never aborts. -/
def batchScrape (urls : List String) (fetchOf : String → Except String FetchedPage) :
    List ExtractionResult :=
  urls.map (fun u => scrapeSinglePage u (fetchOf u))

/-- One step of the batch loop schedule: a page fetch or a rate-limit
suspension of the given number of milliseconds. -/
inductive CrawlEvent where
  | fetchPage : String → CrawlEvent
  | delay : Nat → CrawlEvent
deriving Repr, DecidableEq

/-- batchScrape from sitemap_crawler, schedule part: the loop fetches
each URL in order and suspends for delayMs after every page except the
last (the guard i less than length minus one). -/
def batchScrapeSteps (delayMs : Nat) : List String → List CrawlEvent
  | [] => []
  | [u] => [CrawlEvent.fetchPage u]
  | u :: v :: rest =>
    CrawlEvent.fetchPage u :: CrawlEvent.delay delayMs :: batchScrapeSteps delayMs (v :: rest)

/-- The URLs fetched by a schedule, in order. -/
def fetchedUrls (evs : List CrawlEvent) : List String :=
  evs.filterMap (fun e => match e with
    | CrawlEvent.fetchPage u => some u
    | CrawlEvent.delay _ => none)

/-- Whether an event is a rate-limit suspension. -/
def isDelayEvent : CrawlEvent → Bool
  | CrawlEvent.fetchPage _ => false
  | CrawlEvent.delay _ => true

/-- Milliseconds spent suspended at one event. -/
def eventDelay : CrawlEvent → Nat
  | CrawlEvent.fetchPage _ => 0
  | CrawlEvent.delay ms => ms

/-- Total milliseconds a schedule spends in rate-limit suspensions. -/
def totalDelay (evs : List CrawlEvent) : Nat :=
  (evs.map eventDelay).sum

/-- Step 1 fallback of intelligentCrawl: when sitemap discovery yields
nothing, the base URL becomes the sole candidate. -/
def discoveredOrSeed (baseUrl : String) (discovered : List String) : List String :=
  if discovered.isEmpty then [baseUrl] else discovered

/-- Steps 1 to 3 of intelligentCrawl, producing the candidate list
handed to prioritizeUrls: discovery fallback, cleanUrls, filterUrlsByType
with twice maxPages, and the push of the base URL when filtering yields
nothing. The discovered list stands for the result of the effectful
discoverSitemap call. -/
def intelligentCrawlCandidates (baseUrl : String) (discovered : List String)
    (t : String) (maxPages : Nat) : List String :=
  let discoveredUrls := discoveredOrSeed baseUrl discovered
  let cleanedUrls := cleanUrls discoveredUrls
  let filteredUrls := filterUrlsByType cleanedUrls t (maxPages * 2)
  if filteredUrls.isEmpty then [baseUrl] else filteredUrls

/-! ## Spec-side definitions used to compare code against spec wording -/

/-- Follows the words of the spec for the claim on cleanUrls: a
syntactically valid absolute http or https address, i.e. a parseable URL
whose scheme is exactly http or https. -/
def specAbsoluteHttpUrl (u : String) : Bool :=
  match parseUrl u with
  | some p => p.scheme == "http" || p.scheme == "https"
  | none => false

/-- The path component of a URL, empty for unparseable input. -/
def pathOf (u : String) : String :=
  match parseUrl u with
  | some p => p.pathname
  | none => ""

/-- Follows the words of the spec for the claim on classification:
include and exclude decided by case-insensitive substring match of each
pattern against the URL path component, with the same empty-include
rule, deduplication and cap as the code. To be compared with
filterUrlsByType, which matches patterns against the whole URL string. -/
def filterUrlsByTypeSpecPath (urls : List String) (t : String) (maxPages : Nat) : List String :=
  let pats := contentPatterns t
  let f1 := if pats.includePatterns.isEmpty then urls
    else urls.filter (fun u => pats.includePatterns.any (fun p => strIncludesCI (pathOf u) p))
  let f2 := if pats.excludePatterns.isEmpty then f1
    else f1.filter (fun u => !(pats.excludePatterns.any (fun p => strIncludesCI (pathOf u) p)))
  capList maxPages (dedupFirst f2)

/-! ## Helper lemmas -/

lemma mem_capList {c : Nat} {l : List String} {u : String} (h : u ∈ capList c l) : u ∈ l := by
  unfold capList at h
  split at h
  · exact List.mem_of_mem_take h
  · exact h

lemma mem_dedupFirstAux {u : String} :
    ∀ (l seen : List String), u ∈ dedupFirstAux l seen → u ∈ l := by
  intro l
  induction l with
  | nil => intro seen h; simp [dedupFirstAux] at h
  | cons a rest ih =>
    intro seen h
    simp only [dedupFirstAux] at h
    split at h
    · exact List.mem_cons_of_mem a (ih seen h)
    · rcases List.mem_cons.mp h with h1 | h2
      · exact h1 ▸ List.mem_cons_self _ _
      · exact List.mem_cons_of_mem a (ih (a :: seen) h2)

lemma mem_dedupFirst {u : String} {l : List String} (h : u ∈ dedupFirst l) : u ∈ l :=
  mem_dedupFirstAux l [] h

lemma mem_applyIncludeFilter {pats l : List String} {u : String}
    (h : u ∈ applyIncludeFilter pats l) :
    u ∈ l ∧ (pats.isEmpty = false → pats.any (fun p => strIncludesCI u p) = true) := by
  unfold applyIncludeFilter at h
  split at h
  · next hemp => exact ⟨h, fun hf => by rw [hf] at hemp; cases hemp⟩
  · obtain ⟨hm, hp⟩ := List.mem_filter.mp h
    exact ⟨hm, fun _ => hp⟩

lemma mem_applyExcludeFilter {pats l : List String} {u : String}
    (h : u ∈ applyExcludeFilter pats l) :
    u ∈ l ∧ pats.all (fun p => !(strIncludesCI u p)) = true := by
  unfold applyExcludeFilter at h
  split at h
  · next hemp =>
    have hnil : pats = [] := by simpa using hemp
    exact ⟨h, by rw [hnil]; rfl⟩
  · obtain ⟨hm, hp⟩ := List.mem_filter.mp h
    refine ⟨hm, ?_⟩
    simp only [Bool.not_eq_true'] at hp
    simp only [List.all_eq_true, Bool.not_eq_true']
    intro p hpm
    rcases hq : strIncludesCI u p with _ | _
    · rfl
    · exact absurd hp (by simp [List.any_eq_true]; exact ⟨p, hpm, hq⟩)

lemma mem_filterUrlsByType {urls : List String} {t : String} {cap : Nat} {u : String}
    (h : u ∈ filterUrlsByType urls t cap) :
    u ∈ urls
    ∧ ((contentPatterns t).includePatterns.isEmpty = false →
        (contentPatterns t).includePatterns.any (fun p => strIncludesCI u p) = true)
    ∧ (contentPatterns t).excludePatterns.all (fun p => !(strIncludesCI u p)) = true := by
  unfold filterUrlsByType at h
  have h1 := mem_dedupFirst (mem_capList h)
  obtain ⟨h2, hexc⟩ := mem_applyExcludeFilter h1
  obtain ⟨h3, hinc⟩ := mem_applyIncludeFilter h2
  exact ⟨h3, hinc, hexc⟩

lemma priorityLe_trans (a b c : ScoredUrl)
    (hab : priorityLe a b = true) (hbc : priorityLe b c = true) : priorityLe a c = true := by
  simp only [priorityLe, Bool.or_eq_true, Bool.and_eq_true, decide_eq_true_eq] at *
  omega

lemma priorityLe_total (a b : ScoredUrl) : (priorityLe a b || priorityLe b a) = true := by
  simp only [priorityLe, Bool.or_eq_true, Bool.and_eq_true, decide_eq_true_eq]
  omega

lemma prioritizedItems_idx_perm (urls : List String) (t : String) :
    List.Perm ((prioritizedItems urls t).map (fun s => s.originalIndex))
      (List.range urls.length) := by
  have h := (List.mergeSort_perm (scoredItems urls t) priorityLe).map
    (fun s : ScoredUrl => s.originalIndex)
  have h3 : (scoredItems urls t).map (fun s => s.originalIndex) = List.range urls.length := by
    unfold scoredItems
    rw [List.map_map]
    have hc : ((fun s : ScoredUrl => s.originalIndex) ∘
        (fun p : Nat × String =>
          ({ url := p.2, priority := calculateUrlPriority p.2 p.1 t,
             originalIndex := p.1 } : ScoredUrl))) = Prod.fst := rfl
    rw [hc, List.enum_map_fst]
  rw [h3] at h
  exact h

lemma prioritizedItems_pairwise_strict (urls : List String) (t : String) :
    (prioritizedItems urls t).Pairwise
      (fun a b => b.priority < a.priority
        ∨ (a.priority = b.priority ∧ a.originalIndex < b.originalIndex)) := by
  have hle : (prioritizedItems urls t).Pairwise (fun a b => priorityLe a b = true) :=
    List.sorted_mergeSort priorityLe_trans priorityLe_total (scoredItems urls t)
  have hnd : ((prioritizedItems urls t).map (fun s => s.originalIndex)).Nodup :=
    ((prioritizedItems_idx_perm urls t).nodup_iff).mpr (List.nodup_range _)
  have hne : (prioritizedItems urls t).Pairwise
      (fun a b => a.originalIndex ≠ b.originalIndex) := by
    have h2 : List.Pairwise (fun a b : Nat => a ≠ b)
        ((prioritizedItems urls t).map (fun s => s.originalIndex)) := hnd
    rw [List.pairwise_map] at h2
    exact h2
  refine (hle.and hne).imp ?_
  intro a b hab
  obtain ⟨h1, h2⟩ := hab
  simp only [priorityLe, Bool.or_eq_true, Bool.and_eq_true, decide_eq_true_eq] at h1
  omega

/-! ## Claim theorems -/

/-- C1 counterexample: cleanUrls performs no deduplication and its
http-prefix check admits schemes other than http and https, so the
output for the duplicated entry httpx://a/ has a duplicate and an entry
that is not a valid absolute http(s) address. -/
theorem cleanUrls_claim_counterexample :
    cleanUrls ["httpx://a/", "httpx://a/"] = ["httpx://a/", "httpx://a/"]
    ∧ ¬(cleanUrls ["httpx://a/", "httpx://a/"]).Nodup
    ∧ (cleanUrls ["httpx://a/", "httpx://a/"]).all specAbsoluteHttpUrl = false := by
  decide

/-- C1, amended: every entry returned by cleanUrls is the trim of some
input entry, is nonempty, parses as an absolute URL, and starts with the
prefix http (any scheme with that prefix is admitted), and the output
preserves input order as a sublist of the trimmed input; duplicates are
not removed. -/
theorem cleanUrls_clean (urls : List String) :
    (∀ u, u ∈ cleanUrls urls →
      (∃ v, v ∈ urls ∧ u = jsTrim v)
      ∧ 0 < u.length ∧ validateUrl u = true ∧ jsStartsWith u "http" = true)
    ∧ (cleanUrls urls).Sublist (urls.map jsTrim) := by
  constructor
  · intro u hu
    unfold cleanUrls at hu
    obtain ⟨hu1, hstart⟩ := List.mem_filter.mp hu
    obtain ⟨hu2, hvalid⟩ := List.mem_filter.mp hu1
    obtain ⟨hu3, hlen⟩ := List.mem_filter.mp hu2
    obtain ⟨v, hv, rfl⟩ := List.mem_map.mp hu3
    exact ⟨⟨v, (List.mem_filter.mp hv).1, rfl⟩, by simpa using hlen, hvalid, hstart⟩
  · unfold cleanUrls
    refine List.Sublist.trans (List.filter_sublist _) ?_
    refine List.Sublist.trans (List.filter_sublist _) ?_
    refine List.Sublist.trans (List.filter_sublist _) ?_
    exact List.Sublist.map jsTrim (List.filter_sublist urls)

/-- C1 witness: the single padded entry is trimmed, validated and
returned by cleanUrls. -/
theorem cleanUrls_clean_witness :
    (∃ v, v ∈ [" https://example.com/docs/ "] ∧ "https://example.com/docs/" = jsTrim v)
    ∧ 0 < ("https://example.com/docs/").length
    ∧ validateUrl "https://example.com/docs/" = true
    ∧ jsStartsWith "https://example.com/docs/" "http" = true :=
  (cleanUrls_clean [" https://example.com/docs/ "]).1 "https://example.com/docs/" (by decide)

/-- C2 counterexample: the URL whose path is /docs/a but whose query
string contains /blog/ is discarded by filterUrlsByType, although under
matching against the path component alone it would be kept: the include
pattern /docs/ matches its path and no exclude pattern does. The
classification therefore does not decide membership on the path
component. -/
theorem filterUrlsByType_path_counterexample :
    filterUrlsByType ["https://example.com/docs/a?x=/blog/"] "documentation" 15 = []
    ∧ filterUrlsByTypeSpecPath ["https://example.com/docs/a?x=/blog/"] "documentation" 15
        = ["https://example.com/docs/a?x=/blog/"]
    ∧ strIncludesCI (pathOf "https://example.com/docs/a?x=/blog/") "/docs/" = true
    ∧ (contentPatterns "documentation").excludePatterns.all
        (fun p => !(strIncludesCI (pathOf "https://example.com/docs/a?x=/blog/") p)) = true := by
  decide

/-- C2, amended: filterUrlsByType decides include and exclude
membership by case-insensitive substring match of each pattern against
the entire URL string: every URL it returns matches some include
pattern when the include set is nonempty, and matches no exclude
pattern, both matches taken on the whole lowercased URL. -/
theorem filterUrlsByType_matches_whole_url (urls : List String) (t : String) (cap : Nat)
    (u : String) (h : u ∈ filterUrlsByType urls t cap) :
    ((contentPatterns t).includePatterns.isEmpty = false →
      (contentPatterns t).includePatterns.any (fun p => strIncludesCI u p) = true)
    ∧ (contentPatterns t).excludePatterns.all (fun p => !(strIncludesCI u p)) = true :=
  (mem_filterUrlsByType h).2

/-- C2 witness: the documentation-profile decision on a kept URL. -/
theorem filterUrlsByType_matches_whole_url_witness :
    ((contentPatterns "documentation").includePatterns.isEmpty = false →
      (contentPatterns "documentation").includePatterns.any
        (fun p => strIncludesCI "https://example.com/docs/" p) = true)
    ∧ (contentPatterns "documentation").excludePatterns.all
        (fun p => !(strIncludesCI "https://example.com/docs/" p)) = true :=
  filterUrlsByType_matches_whole_url ["https://example.com/docs/"] "documentation" 15
    "https://example.com/docs/" (by decide)

/-- C4: the path /docs/ at discovery index 0 under the documentation
profile scores exactly 177: base 100, minus 3 for one path segment,
plus 30 root-docs bonus, plus 50 positional bonus, and no keyword-tier
bonus. -/
theorem calculateUrlPriority_docs_root_example :
    calculateUrlPriority "https://example.com/docs/" 0 "documentation" = 177 := by
  decide

/-- C8: filterUrlsByType returns a subset of its input, and no URL
matching any exclude pattern of the profile appears in the output, even
if it also matches an include pattern (the exclude filter runs after
the include filter and discards unconditionally). -/
theorem filterUrlsByType_subset_exclude (urls : List String) (t : String) (cap : Nat) :
    (∀ u, u ∈ filterUrlsByType urls t cap → u ∈ urls)
    ∧ (∀ u, u ∈ filterUrlsByType urls t cap →
        (contentPatterns t).excludePatterns.all (fun p => !(strIncludesCI u p)) = true) :=
  ⟨fun _ h => (mem_filterUrlsByType h).1, fun _ h => (mem_filterUrlsByType h).2.2⟩

/-- C8 witness: a kept documentation URL is in the input and matches no
exclude pattern. -/
theorem filterUrlsByType_subset_exclude_witness :
    "https://example.com/docs/" ∈ ["https://example.com/docs/", "https://example.com/api/"]
    ∧ (contentPatterns "documentation").excludePatterns.all
        (fun p => !(strIncludesCI "https://example.com/docs/" p)) = true :=
  ⟨(filterUrlsByType_subset_exclude ["https://example.com/docs/", "https://example.com/api/"]
      "documentation" 15).1 "https://example.com/docs/" (by decide),
   (filterUrlsByType_subset_exclude ["https://example.com/docs/", "https://example.com/api/"]
      "documentation" 15).2 "https://example.com/docs/" (by decide)⟩

/-- C3: prioritizeUrls returns at most maxPages URLs, these are the
URLs of the sorted score list truncated at maxPages, and that list is
strictly ordered: descending by score with ties broken by strictly
ascending original index, so equal-score entries are never reordered
against discovery order. The function is deterministic: the comparator
is a total order on elements with the pairwise-distinct discovery
indices, so identical input yields identical output ordering. -/
theorem prioritizeUrls_ranked (urls : List String) (t : String) (maxPages : Nat) :
    (prioritizeUrls urls t maxPages).length ≤ maxPages
    ∧ ((prioritizedItems urls t).take maxPages).Pairwise
        (fun a b => b.priority < a.priority
          ∨ (a.priority = b.priority ∧ a.originalIndex < b.originalIndex))
    ∧ prioritizeUrls urls t maxPages
        = ((prioritizedItems urls t).take maxPages).map (fun s => s.url) := by
  refine ⟨?_, ?_, rfl⟩
  · simp only [prioritizeUrls, List.length_map, List.length_take]
    omega
  · exact List.Pairwise.sublist (List.take_sublist maxPages _)
      (prioritizedItems_pairwise_strict urls t)

/-- C5: a failed per-page scrape returns the empty content with length
0, and a successful one does not guarantee positive length: a page
whose extraction yields no text scrapes successfully with length 0. -/
theorem scrapeSinglePage_failure_empty :
    (∀ url fetched, (scrapeSinglePage url fetched).success = false →
      (scrapeSinglePage url fetched).content = ""
      ∧ (scrapeSinglePage url fetched).length = 0)
    ∧ (∃ url fetched, (scrapeSinglePage url fetched).success = true
        ∧ (scrapeSinglePage url fetched).length = 0) := by
  constructor
  · intro url fetched h
    cases fetched with
    | ok page => simp [scrapeSinglePage] at h
    | error msg => exact ⟨rfl, rfl⟩
  · exact ⟨"https://example.com/",
      Except.ok { rawContent := "", title := "", description := "" }, rfl, by decide⟩

/-- C5 witness: a concrete failed fetch yields empty content and length
0. -/
theorem scrapeSinglePage_failure_empty_witness :
    (scrapeSinglePage "https://example.com/" (Except.error "timeout")).content = ""
    ∧ (scrapeSinglePage "https://example.com/" (Except.error "timeout")).length = 0 :=
  scrapeSinglePage_failure_empty.1 "https://example.com/" (Except.error "timeout") rfl

/-- C6: batchScrape yields exactly one result per input URL, in input
order, each carrying its URL; a URL whose fetch fails contributes a
record with success false while the loop continues, so the batch never
aborts on one page. -/
theorem batchScrape_per_url (urls : List String)
    (fetchOf : String → Except String FetchedPage) :
    (batchScrape urls fetchOf).length = urls.length
    ∧ (∀ (i : Nat) (u : String), urls[i]? = some u →
        ∃ r : ExtractionResult, (batchScrape urls fetchOf)[i]? = some r ∧ r.url = u
          ∧ (∀ e, fetchOf u = Except.error e →
              r.success = false ∧ r.content = "")) := by
  constructor
  · simp [batchScrape]
  · intro i u hu
    have hmap : (batchScrape urls fetchOf)[i]? = some (scrapeSinglePage u (fetchOf u)) := by
      simp only [batchScrape, List.getElem?_map, hu, Option.map_some']
    refine ⟨scrapeSinglePage u (fetchOf u), hmap, ?_, ?_⟩
    · cases hf : fetchOf u <;> rfl
    · intro e he
      rw [he]
      exact ⟨rfl, rfl⟩

/-- C6 witness: with a fetch oracle failing every URL, position 0 of a
two-URL batch still holds a record for the first URL with success
false, and the statement of the second URL is obtainable likewise. -/
theorem batchScrape_per_url_witness :
    ∃ r : ExtractionResult, (batchScrape ["https://a.com/", "https://b.com/"]
        (fun _ => Except.error "dns"))[0]? = some r
      ∧ r.url = "https://a.com/"
      ∧ (∀ e, (fun _ : String =>
            (Except.error "dns" : Except String FetchedPage)) "https://a.com/"
              = Except.error e →
          r.success = false ∧ r.content = "") :=
  (batchScrape_per_url ["https://a.com/", "https://b.com/"]
    (fun _ => Except.error "dns")).2 0 "https://a.com/" rfl

/-- C7: the candidate list handed to the ranking stage is never empty:
when filtering yields nothing the base URL is substituted, and when
discovery yields nothing the base URL becomes the sole discovered
candidate. -/
theorem intelligentCrawl_candidates_nonempty (b : String) (d : List String)
    (t : String) (mp : Nat) :
    (intelligentCrawlCandidates b d t mp).isEmpty = false
    ∧ (filterUrlsByType (cleanUrls (discoveredOrSeed b d)) t (mp * 2) = [] →
        intelligentCrawlCandidates b d t mp = [b])
    ∧ discoveredOrSeed b [] = [b] := by
  refine ⟨?_, ?_, rfl⟩
  · have hgen : ∀ (l : List String) (x : String),
        ((if l.isEmpty then [x] else l) : List String).isEmpty = false := by
      intro l x
      cases l <;> simp
    simpa only [intelligentCrawlCandidates] using
      hgen (filterUrlsByType (cleanUrls (discoveredOrSeed b d)) t (mp * 2)) b
  · intro h
    simp [intelligentCrawlCandidates, h]

/-- C7 witness: a discovered list whose single entry is not a URL
washes out in cleaning, filtering yields nothing, and the base URL is
substituted. -/
theorem intelligentCrawl_candidates_nonempty_witness :
    intelligentCrawlCandidates "https://example.com/" ["x"] "documentation" 15
      = ["https://example.com/"] :=
  (intelligentCrawl_candidates_nonempty "https://example.com/" ["x"]
    "documentation" 15).2.1 (by decide)

/-- C9: the batch schedule fetches the URLs strictly in ranked order
and suspends for delayMs after each page except the last: the number of
suspensions is the length minus one and the total suspension time is
that count times delayMs; in particular a 3-URL crawl at 1000 ms delays
exactly 2000 ms. -/
theorem batchScrape_schedule :
    (∀ (d : Nat) (urls : List String),
      fetchedUrls (batchScrapeSteps d urls) = urls
      ∧ ((batchScrapeSteps d urls).filter isDelayEvent).length = urls.length - 1
      ∧ totalDelay (batchScrapeSteps d urls) = (urls.length - 1) * d)
    ∧ (∀ u1 u2 u3, totalDelay (batchScrapeSteps 1000 [u1, u2, u3]) = 2000) := by
  constructor
  · intro d urls
    induction urls with
    | nil => exact ⟨rfl, rfl, by simp [batchScrapeSteps, totalDelay]⟩
    | cons u rest ih =>
      cases rest with
      | nil => exact ⟨rfl, rfl, by simp [batchScrapeSteps, totalDelay, eventDelay]⟩
      | cons v rest2 =>
        obtain ⟨ih1, ih2, ih3⟩ := ih
        refine ⟨?_, ?_, ?_⟩
        · simp only [batchScrapeSteps, fetchedUrls, List.filterMap_cons] at ih1 ⊢
          rw [ih1]
        · simp [batchScrapeSteps, isDelayEvent, List.filter_cons,
            List.length_cons] at ih2 ⊢
          omega
        · simp only [batchScrapeSteps, totalDelay, eventDelay, List.map_cons,
            List.sum_cons, List.length_cons, Nat.add_sub_cancel] at ih3 ⊢
          rw [ih3]
          ring
  · intro u1 u2 u3
    rfl

/-- C10: calculateUrlPriority is total with a non-negative result on
every input string, and an input the URL parser rejects receives score
0 through the catch branch. -/
theorem calculateUrlPriority_total (url : String) (idx : Nat) (t : String) :
    0 ≤ calculateUrlPriority url idx t
    ∧ (parseUrl url = none → calculateUrlPriority url idx t = 0) := by
  cases hp : parseUrl url with
  | none =>
    exact ⟨by simp [calculateUrlPriority, hp], fun _ => by simp [calculateUrlPriority, hp]⟩
  | some u =>
    refine ⟨?_, fun h => by simp [hp] at h⟩
    simp only [calculateUrlPriority, hp]
    exact le_max_left 0 _

/-- C10 witness: a string the URL parser rejects scores 0 and is
non-negative. -/
theorem calculateUrlPriority_total_witness :
    0 ≤ calculateUrlPriority "not a url" 3 "documentation"
    ∧ calculateUrlPriority "not a url" 3 "documentation" = 0 :=
  ⟨(calculateUrlPriority_total "not a url" 3 "documentation").1,
   (calculateUrlPriority_total "not a url" 3 "documentation").2 (by decide)⟩

end Scraper
